import Mathlib

/-
  Verification of the AuthzKit core: the policy decision engine
  (packages/core/src/index.ts) and the tenant-isolation payload walker
  (packages/prisma-tenant-guard/src/index.ts).

  JavaScript runtime values that the two subsystems inspect (mutation
  payloads, field masks, attrs records) are modelled by the `JsonVal`
  inductive below; plain objects are association lists in insertion
  order, `undef` models the JavaScript value `undefined` (a property
  read of a missing key yields `undef`).  In-place mutation of payloads
  is modelled by returning the updated value; the `onWarn` callback is
  modelled by the list of warnings emitted during a successful call.
-/

namespace AuthzKit

inductive JsonVal where
  | undef
  | null
  | bool (b : Bool)
  | num (n : Int)
  | str (s : String)
  | arr (items : List JsonVal)
  | obj (fields : List (String × JsonVal))

/-- Association-list lookup: first binding of the key, mirroring JS
property access on objects with unique keys. -/
def lookupField : List (String × JsonVal) → String → Option JsonVal
  | [], _ => none
  | (k, v) :: rest, key => if k = key then some v else lookupField rest key

/-- Property assignment `o[key] = v`: replaces the first binding in place,
or appends (JS insertion order puts new keys last). -/
def setField : List (String × JsonVal) → String → JsonVal → List (String × JsonVal)
  | [], key, v => [(key, v)]
  | (k, w) :: rest, key, v =>
    if k = key then (k, v) :: rest else (k, w) :: setField rest key v

/-- The JS `key in obj` test. -/
def hasField (fields : List (String × JsonVal)) (key : String) : Bool :=
  (lookupField fields key).isSome

/-- JS property read `value[key]`: `undefined` when the key is absent or
the value is not an object. -/
def jget : JsonVal → String → JsonVal
  | .obj fields, key => (lookupField fields key).getD .undef
  | _, _ => .undef

def JsonVal.isUndef : JsonVal → Bool
  | .undef => true
  | _ => false

/-- JS strict equality of a runtime value with a string (`value === s`):
only a string with the same characters compares equal. -/
def jStrEq : JsonVal → String → Bool
  | .str t, s => t == s
  | _, _ => false

/-- JS truthiness. -/
def truthy : JsonVal → Bool
  | .undef => false
  | .null => false
  | .bool b => b
  | .num n => n != 0
  | .str s => s != ""
  | .arr _ => true
  | .obj _ => true

/-- `isPlainObject` from the source: a truthy `object` that is not an
array (ruling out `null`, arrays and primitives). -/
def isPlainObject : JsonVal → Bool
  | .obj _ => true
  | _ => false

/-! Structural size of a runtime value, used only to supply recursion
fuel; every value has size at least 1. -/

mutual

def jsize : JsonVal → Nat
  | .arr items => 1 + jsizeList items
  | .obj fields => 1 + jsizeFields fields
  | _ => 1

def jsizeList : List JsonVal → Nat
  | [] => 1
  | v :: rest => 1 + jsize v + jsizeList rest

def jsizeFields : List (String × JsonVal) → Nat
  | [] => 1
  | (_, v) :: rest => 1 + jsize v + jsizeFields rest

end

/-! ## Mask merger (packages/core/src/index.ts, `cloneMask` / `mergeMaskRecords`) -/

/-- A `MaskRecord` is a plain JS object whose values are `true`, nested
mask records, or arbitrary junk (normalised to `true` by cloning). -/
abbrev MaskRec := List (String × JsonVal)

mutual

/-- `cloneMask`: deep-copies a mask record; any value that is neither the
literal `true` nor a record is normalised to `true`. -/
def cloneMask : MaskRec → MaskRec
  | [] => []
  | (key, v) :: rest => (key, cloneMaskVal v) :: cloneMask rest

/-- Normalisation of one mask entry value during cloning. -/
def cloneMaskVal : JsonVal → JsonVal
  | .bool true => .bool true
  | .obj nested => .obj (cloneMask nested)
  | _ => .bool true

end

/-- The entry loop of `mergeMaskRecords` on two present records: `result`
starts as a clone of the base and each entry of `next` is merged into it.
`fuel` only bounds the recursion depth (the source recursion terminates
because `next` shrinks structurally; the wrapper below supplies fuel that
is never exhausted). -/
def mergeMaskFuel : Nat → MaskRec → MaskRec → MaskRec
  | 0, result, _ => result
  | _ + 1, result, [] => result
  | f + 1, result, (key, value) :: rest =>
    match value with
    | .bool true => mergeMaskFuel f (setField result key (.bool true)) rest
    | .obj nested =>
      (match lookupField result key with
       | some (.bool true) => mergeMaskFuel f result rest
       | some (.obj existing) =>
         -- both sides hold records: recursive merge (the `?? cloneMask`
         -- fallback in the source is dead, a merge of two records is a record)
         mergeMaskFuel f
           (setField result key (.obj (mergeMaskFuel f (cloneMask existing) nested))) rest
       | _ => mergeMaskFuel f (setField result key (.obj (cloneMask nested))) rest)
    | _ => mergeMaskFuel f (setField result key (.bool true)) rest

/-- `mergeMaskRecords(base, next)`: `undefined` on either side yields a
clone of the other side; two records are merged entrywise. -/
def mergeMaskRecords : Option MaskRec → Option MaskRec → Option MaskRec
  | base, none => base.map cloneMask
  | none, some next => some (cloneMask next)
  | some base, some next => some (mergeMaskFuel (jsizeFields next) (cloneMask base) next)

/-- `mergeMasks` / `mergeActionMasks` are typed casts of `mergeMaskRecords`. -/
def mergeActionMasks : Option MaskRec → Option MaskRec → Option MaskRec :=
  mergeMaskRecords

/-! ## Policy decision engine (packages/core/src/index.ts) -/

inductive PolicyEffect where
  | allow
  | deny
deriving DecidableEq

inductive DecisionEffect where
  | allow
  | deny
  | default
deriving DecidableEq

def PolicyEffect.toDecision : PolicyEffect → DecisionEffect
  | .allow => .allow
  | .deny => .deny

/-- Free-form `Record<string, unknown>` carried opaquely (attrs). -/
abbrev Attrs := List (String × JsonVal)

/-- A `RuleMatchDetails` object; the source field `matches` is named
`matchesFlag` here because `matches` is reserved in Lean. -/
structure RuleMatchDetails where
  matchesFlag : Bool
  reason : Option String := none
  attrs : Option Attrs := none
  readMask : Option MaskRec := none
  writeMask : Option MaskRec := none

/-- Result of a `when` predicate: a boolean or a match-details object. -/
inductive WhenOutcome where
  | bool (b : Bool)
  | details (d : RuleMatchDetails)

/-- A `readMask`/`writeMask` rule attribute: a static mask or a function
of the input. -/
inductive MaskFactory (I : Type) where
  | value (m : MaskRec)
  | fn (f : I → Option MaskRec)

/-- A rule's `action` attribute: one action name or a list of names. -/
inductive RuleActions where
  | single (a : String)
  | many (as : List String)

/-- `toArray` from the source. -/
def RuleActions.toList : RuleActions → List String
  | .single a => [a]
  | .many as => as

structure PolicyRule (I : Type) where
  id : String
  action : RuleActions
  effect : PolicyEffect
  whenPred : Option (I → WhenOutcome) := none
  reason : Option String := none
  meta : Option Attrs := none
  readMask : Option (MaskFactory I) := none
  writeMask : Option (MaskFactory I) := none

/-- A policy decision; `contextAction` models `context.action`. -/
structure PolicyDecision where
  allow : Bool
  reason : Option String := none
  matchedRule : Option String := none
  effect : DecisionEffect
  attrs : Option Attrs := none
  contextAction : String
  readMask : Option MaskRec := none
  writeMask : Option MaskRec := none

/-- A default-decision configuration: a plain decision or a factory of
the evaluation context (action plus input, passed separately here). -/
inductive PolicyDecisionFactory (I : Type) where
  | value (d : PolicyDecision)
  | fn (f : String → I → PolicyDecision)

structure PolicyConfig (I : Type) where
  rules : List (PolicyRule I)
  defaultDecision : Option (PolicyDecisionFactory I) := none

/-- `resolveMaskFactory`: absent factories yield `undefined`; functions
are invoked with the input. -/
def resolveMaskFactory {I : Type} : Option (MaskFactory I) → I → Option MaskRec
  | none, _ => none
  | some (.value m), _ => some m
  | some (.fn f), i => f i

/-- `buildDecision` inside `definePolicy`: combines the rule-level masks
with predicate-supplied masks, and assembles the decision.  The source
sets `reason` only when the resolved reason is truthy (a non-empty
string), and `attrs`/masks only when present. -/
def buildDecision {I : Type} (rule : PolicyRule I) (action : String) (input : I)
    (details : Option RuleMatchDetails) : PolicyDecision :=
  let ruleReadMask := resolveMaskFactory rule.readMask input
  let ruleWriteMask := resolveMaskFactory rule.writeMask input
  let combinedReadMask := mergeActionMasks (details.bind (·.readMask)) ruleReadMask
  let combinedWriteMask := mergeActionMasks (details.bind (·.writeMask)) ruleWriteMask
  { allow := rule.effect == .allow
    reason := ((details.bind (·.reason)).orElse (fun _ => rule.reason)).bind
      (fun r => if r == "" then none else some r)
    matchedRule := some rule.id
    effect := rule.effect.toDecision
    attrs := details.bind (·.attrs)
    contextAction := action
    readMask := combinedReadMask
    writeMask := combinedWriteMask }

/-- `evaluateRule` inside `definePolicy`. -/
def evaluateRule {I : Type} (rule : PolicyRule I) (action : String) (input : I) :
    Option PolicyDecision :=
  if (rule.action.toList).contains action then
    match rule.whenPred with
    | none => some (buildDecision rule action input none)
    | some evaluator =>
      match evaluator input with
      | .bool b => if b then some (buildDecision rule action input none) else none
      | .details outcome =>
        if outcome.matchesFlag then some (buildDecision rule action input (some outcome))
        else none
  else none

/-- `normaliseDecision`: resolves a factory against the evaluation
context.  The `?? 'default'` / `?? {action}` fallbacks of the source are
identities here because `effect` and `context` are total fields. -/
def normaliseDecision {I : Type} (factory : PolicyDecisionFactory I) (action : String)
    (input : I) : PolicyDecision :=
  match factory with
  | .value d => d
  | .fn f => f action input

/-- The built-in default decision factory of `definePolicy`. -/
def defaultDenyFactory (I : Type) : PolicyDecisionFactory I :=
  .fn (fun action _ =>
    { allow := false
      reason := some "DEFAULT_DENY"
      effect := .default
      contextAction := action })

/-- The rule loop of `checkDetailed`: deny decisions return immediately,
allow decisions aggregate masks and the first one is kept as the base. -/
def checkLoop {I : Type} (dflt : PolicyDecisionFactory I) (action : String) (input : I) :
    List (PolicyRule I) → Option PolicyDecision → Option MaskRec → Option MaskRec →
    PolicyDecision
  | [], firstAllow, aggR, aggW =>
    match firstAllow with
    | some fa =>
      if aggR.isNone && aggW.isNone then fa
      else
        { fa with
          readMask := match aggR with | some m => some m | none => fa.readMask
          writeMask := match aggW with | some m => some m | none => fa.writeMask }
    | none => normaliseDecision dflt action input
  | rule :: rest, firstAllow, aggR, aggW =>
    match evaluateRule rule action input with
    | none => checkLoop dflt action input rest firstAllow aggR aggW
    | some decision =>
      if decision.allow then
        checkLoop dflt action input rest (firstAllow <|> some decision)
          (mergeActionMasks aggR decision.readMask)
          (mergeActionMasks aggW decision.writeMask)
      else decision

/-- `checkDetailed` of a policy built by `definePolicy`. -/
def checkDetailed {I : Type} (config : PolicyConfig I) (action : String) (input : I) :
    PolicyDecision :=
  checkLoop (config.defaultDecision.getD (defaultDenyFactory I)) action input
    config.rules none none none

/-- `check` is sugar for `checkDetailed(...).allow`. -/
def check {I : Type} (config : PolicyConfig I) (action : String) (input : I) : Bool :=
  (checkDetailed config action input).allow

/-! ## Tenant isolation payload walker (packages/prisma-tenant-guard/src/index.ts)

The walker mutates its `args` in place in the source; here every
function returns the updated value together with the warnings emitted so
far (the `onWarn` side channel).  A thrown `TenantGuardError` is the
`Except.error` case, carrying the structured `details` object; the
human-readable message of `messageFor` is not modelled. -/

inductive Mode where
  | assist
  | assert
  | strict
deriving DecidableEq

inductive TenantGuardErrorCode where
  | TENANT_FIELD_MISSING
  | TENANT_MISMATCH
  | TENANT_META_MISSING
  | WHERE_TENANT_MISSING
  | RLS_CLIENT_MISSING
  | RLS_EXECUTOR_MISSING
deriving DecidableEq

inductive WarningCode where
  | INJECT_TENANT_FIELD
  | INJECT_TENANT_WHERE
deriving DecidableEq

structure TenantGuardWarning where
  code : WarningCode
  model : String
  operation : String
  path : String
deriving DecidableEq

/-- A `nestedTargets` entry: a bare target model name, or a per-operation
configuration object (whose keys include the optional `$default`). -/
inductive NestedTarget where
  | target (model : String)
  | config (entries : List (String × String))

structure TenantMetaModel where
  tenantField : Option String := none
  compositeSelector : Option String := none
  nestedTargets : Option (List (String × NestedTarget)) := none

abbrev TenantMeta := List (String × TenantMetaModel)

/-- The thrown error's `details` payload; `actualTenant` is `undef` when
the source passes `undefined`. -/
structure TenantGuardErrorDetails where
  code : TenantGuardErrorCode
  model : String
  operation : String
  path : String
  expectedTenant : String
  actualTenant : JsonVal := .undef
  meta : Option TenantMetaModel := none

/-- The guard context (`tenantId`, `mode`, `meta`, `rlsEnabled`); the
`onWarn` callback is modelled by the warning list in results. -/
structure GuardCtx where
  tenantId : String
  mode : Mode
  meta : TenantMeta
  rlsEnabled : Bool := false

/-- Result of a walker step: an error (throw) or the updated value plus
the warnings emitted so far. -/
abbrev GuardRes (α : Type) := Except TenantGuardErrorDetails (α × List TenantGuardWarning)

def toPath (base segment : String) : String :=
  if base = "" then segment else base ++ "." ++ segment

def toIndexPath (base : String) (index : Nat) : String :=
  base ++ "[" ++ toString index ++ "]"

/-- `RELATION_OPERATIONS` from the source. -/
def relationOperations : List String :=
  ["create", "createMany", "connect", "connectOrCreate", "update",
   "updateMany", "upsert", "deleteMany", "set", "disconnect"]

mutual

/-- `hasRelationOperations`: does the value (or any array element)
contain a key from `RELATION_OPERATIONS`? -/
def hasRelationOperations : JsonVal → Bool
  | .arr items => hasRelationOperationsList items
  | .obj fields => hasRelationOperationsKeys fields
  | _ => false

def hasRelationOperationsList : List JsonVal → Bool
  | [] => false
  | v :: rest => hasRelationOperations v || hasRelationOperationsList rest

def hasRelationOperationsKeys : List (String × JsonVal) → Bool
  | [] => false
  | (k, _) :: rest => relationOperations.contains k || hasRelationOperationsKeys rest

end

def lookupMeta : TenantMeta → String → Option TenantMetaModel
  | [], _ => none
  | (k, m) :: rest, model => if k = model then some m else lookupMeta rest model

/-- `getTenantField`: the model's configured tenant field, defaulting to
`"tenantId"`. -/
def getTenantField (g : GuardCtx) (model : String) : String :=
  ((lookupMeta g.meta model).bind (·.tenantField)).getD "tenantId"

def getCompositeSelector (g : GuardCtx) (model : String) : Option String :=
  (lookupMeta g.meta model).bind (·.compositeSelector)

/-- `meta?.nestedTargets ?? \x7b\x7d` for one model. -/
def getNestedTargets (g : GuardCtx) (model : String) : List (String × NestedTarget) :=
  ((lookupMeta g.meta model).bind (·.nestedTargets)).getD []

/-- `this.error(...)`: assembles the structured details (the model's
metadata is attached when present). -/
def mkErr (g : GuardCtx) (code : TenantGuardErrorCode)
    (model operation path : String) (actualTenant : JsonVal) : TenantGuardErrorDetails :=
  { code := code, model := model, operation := operation, path := path,
    expectedTenant := g.tenantId, actualTenant := actualTenant,
    meta := lookupMeta g.meta model }

def lookupStr : List (String × String) → String → Option String
  | [], _ => none
  | (k, v) :: rest, key => if k = key then some v else lookupStr rest key

/-- JS truthiness of a `string | undefined`: empty strings are falsy. -/
def truthyStr : Option String → Option String
  | some s => if s = "" then none else some s
  | none => none

/-- `resolveTargetModel`: a bare string config is returned as-is; a
config object is consulted for the operation, then `$default` (both
behind truthiness checks).  The trailing re-check of the metadata in the
source is dead code and returns `undefined` either way.  Call sites run
the result through `truthyStr` to model the `!targetModel` test. -/
def resolveTargetModel (config : NestedTarget) (operation : String) : Option String :=
  match config with
  | .target s => some s
  | .config entries =>
    (truthyStr (lookupStr entries operation)).orElse
      (fun _ => truthyStr (lookupStr entries "$default"))

/-- The composite-selector branch guard shared by `ensureWhere` and
`ensureConnectPayload`: entered iff the model has a configured
`compositeSelector` and the value at it is a plain object. -/
def compositeOf (g : GuardCtx) (model : String) (fields : List (String × JsonVal)) :
    Option (String × List (String × JsonVal)) :=
  match getCompositeSelector g model with
  | some cs =>
    match (lookupField fields cs).getD .undef with
    | .obj cf => some (cs, cf)
    | _ => none
  | none => none

/-- `ensureWhere(model, payload, path, opts)`: requires the where clause
to pin the tenant, via the tenant field itself or the composite
selector; assist mode with rewriting allowed injects it. -/
def ensureWhere (g : GuardCtx) (model : String) (payload : JsonVal) (path : String)
    (allowRewrite : Bool) (operation : String) (ws : List TenantGuardWarning) :
    GuardRes JsonVal :=
  match payload with
  | .obj fields =>
    let tenantField := getTenantField g model
    let whereTenant := (lookupField fields tenantField).getD .undef
    if whereTenant.isUndef then
      match compositeOf g model fields with
      | some (cs, composite) =>
        let compositeTenant := (lookupField composite tenantField).getD .undef
        if compositeTenant.isUndef then
          if g.mode == .assist && allowRewrite then
            .ok (.obj (setField fields cs
                  (.obj (setField composite tenantField (.str g.tenantId)))),
                 ws ++ [⟨.INJECT_TENANT_WHERE, model, operation, toPath path cs⟩])
          else .error (mkErr g .WHERE_TENANT_MISSING model operation path .undef)
        else if !(jStrEq compositeTenant g.tenantId) then
          .error (mkErr g .TENANT_MISMATCH model operation path compositeTenant)
        else .ok (payload, ws)
      | none =>
        if g.mode == .assist && allowRewrite then
          .ok (.obj (setField fields tenantField (.str g.tenantId)),
               ws ++ [⟨.INJECT_TENANT_WHERE, model, operation, path⟩])
        else .error (mkErr g .WHERE_TENANT_MISSING model operation path .undef)
    else if !(jStrEq whereTenant g.tenantId) then
      .error (mkErr g .TENANT_MISMATCH model operation path whereTenant)
    else .ok (payload, ws)
  | _ => .error (mkErr g .WHERE_TENANT_MISSING model operation path .undef)

/-- The `deleteMany` loop: each where entry checked at its index path. -/
def ensureWhereList (g : GuardCtx) (model : String) :
    List JsonVal → String → Nat → Bool → String → List TenantGuardWarning →
    GuardRes (List JsonVal)
  | [], _, _, _, _, ws => .ok ([], ws)
  | item :: rest, path, idx, allowRewrite, operation, ws =>
    match ensureWhere g model item (toIndexPath path idx) allowRewrite operation ws with
    | .error e => .error e
    | .ok (item2, ws2) =>
      match ensureWhereList g model rest path (idx + 1) allowRewrite operation ws2 with
      | .error e => .error e
      | .ok (rest2, ws3) => .ok (item2 :: rest2, ws3)

mutual

/-- `ensureConnectPayload`: a connect/set/disconnect reference must be
anchored to the tenant by an explicit tenant field, a `where` clause, or
the composite selector (injected in assist mode); in strict mode without
RLS an unanchored reference is `TENANT_META_MISSING`. -/
def ensureConnectPayload (g : GuardCtx) (model : String) (payload : JsonVal)
    (path : String) (operation : String) (ws : List TenantGuardWarning) :
    GuardRes JsonVal :=
  match payload with
  | .arr items =>
    match ensureConnectPayloadList g model items path 0 operation ws with
    | .error e => .error e
    | .ok (items2, ws2) => .ok (.arr items2, ws2)
  | .obj fields =>
    let tenantField := getTenantField g model
    let presentTenant := (lookupField fields tenantField).getD .undef
    if !presentTenant.isUndef then
      if !(jStrEq presentTenant g.tenantId) then
        .error (mkErr g .TENANT_MISMATCH model operation path presentTenant)
      else .ok (payload, ws)
    else
      let whereVal := (lookupField fields "where").getD .undef
      if isPlainObject whereVal then
        match ensureWhere g model whereVal (toPath path "where") true operation ws with
        | .error e => .error e
        | .ok (w2, ws2) => .ok (.obj (setField fields "where" w2), ws2)
      else
        match compositeOf g model fields with
        | some (cs, composite) =>
          let tenantValue := (lookupField composite tenantField).getD .undef
          if tenantValue.isUndef then
            if g.mode == .assist then
              .ok (.obj (setField fields cs
                    (.obj (setField composite tenantField (.str g.tenantId)))),
                   ws ++ [⟨.INJECT_TENANT_FIELD, model, operation, toPath path cs⟩])
            else .error (mkErr g .TENANT_FIELD_MISSING model operation path .undef)
          else if !(jStrEq tenantValue g.tenantId) then
            .error (mkErr g .TENANT_MISMATCH model operation path tenantValue)
          else .ok (payload, ws)
        | none =>
          if g.mode == .strict && !g.rlsEnabled then
            .error (mkErr g .TENANT_META_MISSING model operation path .undef)
          else .ok (payload, ws)
  | _ => .error (mkErr g .TENANT_FIELD_MISSING model operation path .undef)

def ensureConnectPayloadList (g : GuardCtx) (model : String) :
    List JsonVal → String → Nat → String → List TenantGuardWarning →
    GuardRes (List JsonVal)
  | [], _, _, _, ws => .ok ([], ws)
  | item :: rest, path, idx, operation, ws =>
    match ensureConnectPayload g model item (toIndexPath path idx) operation ws with
    | .error e => .error e
    | .ok (item2, ws2) =>
      match ensureConnectPayloadList g model rest path (idx + 1) operation ws2 with
      | .error e => .error e
      | .ok (rest2, ws3) => .ok (item2 :: rest2, ws3)

end

/-- The strict-mode exhaustiveness loop at the end of
`ensureNestedRelations`: any un-described key whose value carries a
relation-operation shape is `TENANT_META_MISSING`. -/
def strictRelationCheck (g : GuardCtx) (model : String)
    (targets : List (String × NestedTarget)) :
    List (String × JsonVal) → String → Option TenantGuardErrorDetails
  | [], _ => none
  | (key, value) :: rest, path =>
    if targets.any (fun t => t.1 == key) then
      strictRelationCheck g model targets rest path
    else if hasRelationOperations value then
      some (mkErr g .TENANT_META_MISSING model key (toPath path key) .undef)
    else strictRelationCheck g model targets rest path

/-- The tenant-field step of `ensureData` on a plain object: injection in
assist mode with rewriting allowed, `TENANT_FIELD_MISSING` when required
but absent, `TENANT_MISMATCH` when present and different (any mode). -/
def ensureTenantStamp (g : GuardCtx) (model : String)
    (fields : List (String × JsonVal)) (path : String)
    (requireTenantField allowRewrite : Bool) (mutationKind : String)
    (ws : List TenantGuardWarning) : GuardRes (List (String × JsonVal)) :=
  let tenantField := getTenantField g model
  let presentTenant := (lookupField fields tenantField).getD .undef
  if presentTenant.isUndef then
    if requireTenantField then
      if g.mode == .assist && allowRewrite then
        .ok (setField fields tenantField (.str g.tenantId),
             ws ++ [⟨.INJECT_TENANT_FIELD, model, mutationKind, path⟩])
      else .error (mkErr g .TENANT_FIELD_MISSING model mutationKind path .undef)
    else .ok (fields, ws)
  else if !(jStrEq presentTenant g.tenantId) then
    .error (mkErr g .TENANT_MISMATCH model mutationKind path presentTenant)
  else .ok (fields, ws)

/-- The shared optional-`where` step of nested `update`/`updateMany`/
`upsert` handling: validates `value.where` when it is defined. -/
def whereStep (g : GuardCtx) (model : String) (vfields : List (String × JsonVal))
    (opPath operation : String) (ws : List TenantGuardWarning) :
    GuardRes (List (String × JsonVal)) :=
  let whereVal := (lookupField vfields "where").getD .undef
  if whereVal.isUndef then .ok (vfields, ws)
  else
    match ensureWhere g model whereVal (toPath opPath "where") true operation ws with
    | .error e => .error e
    | .ok (w2, ws2) => .ok (setField vfields "where" w2, ws2)

/-! The recursive walker.  The source recursion is bounded by the
payload tree; here a `fuel` parameter makes the mutual recursion
structural.  Fuel is decremented on every recursive edge and `enforce`
supplies an amount that the walk of a payload can never exhaust; on
exhaustion a function returns its argument unchanged. -/

mutual

/-- `ensureData(model, rawValue, path, opts)`: arrays are checked
elementwise; non-objects only violate a required tenant field; objects
get the tenant-field step, then nested-relation processing, then the
strict-mode exhaustiveness check. -/
def ensureData (g : GuardCtx) (fuel : Nat) (model : String) (rawValue : JsonVal)
    (path : String) (requireTenantField allowRewrite : Bool) (mutationKind : String)
    (ws : List TenantGuardWarning) : GuardRes JsonVal :=
  match rawValue with
  | .arr items =>
    match fuel with
    | 0 => .ok (.arr items, ws)
    | f + 1 =>
      match ensureDataList g f model items path 0 requireTenantField allowRewrite
          mutationKind ws with
      | .error e => .error e
      | .ok (items2, ws2) => .ok (.arr items2, ws2)
  | .obj fields =>
    match ensureTenantStamp g model fields path requireTenantField allowRewrite
        mutationKind ws with
    | .error e => .error e
    | .ok (fields1, ws1) =>
      match fuel with
      | 0 => .ok (.obj fields1, ws1)
      | f + 1 =>
        match nestedRelationsLoop g f model (getNestedTargets g model) fields1 path ws1 with
        | .error e => .error e
        | .ok (fields2, ws2) =>
          if g.mode == .strict && !g.rlsEnabled then
            match strictRelationCheck g model (getNestedTargets g model) fields2 path with
            | some e => .error e
            | none => .ok (.obj fields2, ws2)
          else .ok (.obj fields2, ws2)
  | _ =>
    if requireTenantField then
      .error (mkErr g .TENANT_FIELD_MISSING model "$unknown" path .undef)
    else .ok (rawValue, ws)

/-- Elementwise `ensureData` over an array (path gets an index suffix). -/
def ensureDataList (g : GuardCtx) (fuel : Nat) (model : String) (items : List JsonVal)
    (path : String) (idx : Nat) (requireTenantField allowRewrite : Bool)
    (mutationKind : String) (ws : List TenantGuardWarning) : GuardRes (List JsonVal) :=
  match items with
  | [] => .ok ([], ws)
  | item :: rest =>
    match fuel with
    | 0 => .ok (item :: rest, ws)
    | f + 1 =>
      match ensureData g f model item (toIndexPath path idx) requireTenantField
          allowRewrite mutationKind ws with
      | .error e => .error e
      | .ok (item2, ws2) =>
        match ensureDataList g f model rest path (idx + 1) requireTenantField
            allowRewrite mutationKind ws2 with
        | .error e => .error e
        | .ok (rest2, ws3) => .ok (item2 :: rest2, ws3)

/-- The loop of `ensureNestedRelations` over the model's `nestedTargets`:
every relation field present in the data is processed and written back. -/
def nestedRelationsLoop (g : GuardCtx) (fuel : Nat) (model : String)
    (targets : List (String × NestedTarget)) (data : List (String × JsonVal))
    (path : String) (ws : List TenantGuardWarning) : GuardRes (List (String × JsonVal)) :=
  match targets with
  | [] => .ok (data, ws)
  | (relationField, nestedConfig) :: rest =>
    if hasField data relationField then
      match fuel with
      | 0 => .ok (data, ws)
      | f + 1 =>
        match processRelationPayload g f model relationField nestedConfig
            ((lookupField data relationField).getD .undef)
            (toPath path relationField) ws with
        | .error e => .error e
        | .ok (v2, ws2) =>
          nestedRelationsLoop g f model rest (setField data relationField v2) path ws2
    else
      match fuel with
      | 0 => .ok (data, ws)
      | f + 1 => nestedRelationsLoop g f model rest data path ws

/-- `processRelationPayload`: arrays recurse elementwise; objects have
each relation-operation key dispatched; anything else is left alone. -/
def processRelationPayload (g : GuardCtx) (fuel : Nat)
    (parentModel relationField : String) (config : NestedTarget) (payload : JsonVal)
    (path : String) (ws : List TenantGuardWarning) : GuardRes JsonVal :=
  match payload with
  | .obj entries =>
    match fuel with
    | 0 => .ok (payload, ws)
    | f + 1 =>
      match relOpsLoop g f parentModel relationField config entries entries path ws with
      | .error e => .error e
      | .ok (acc2, ws2) => .ok (.obj acc2, ws2)
  | .arr items =>
    match fuel with
    | 0 => .ok (payload, ws)
    | f + 1 =>
      match processRelationList g f parentModel relationField config items path 0 ws with
      | .error e => .error e
      | .ok (items2, ws2) => .ok (.arr items2, ws2)
  | _ => .ok (payload, ws)

def processRelationList (g : GuardCtx) (fuel : Nat)
    (parentModel relationField : String) (config : NestedTarget)
    (items : List JsonVal) (path : String) (idx : Nat)
    (ws : List TenantGuardWarning) : GuardRes (List JsonVal) :=
  match items with
  | [] => .ok ([], ws)
  | item :: rest =>
    match fuel with
    | 0 => .ok (item :: rest, ws)
    | f + 1 =>
      match processRelationPayload g f parentModel relationField config item
          (toIndexPath path idx) ws with
      | .error e => .error e
      | .ok (item2, ws2) =>
        match processRelationList g f parentModel relationField config rest path
            (idx + 1) ws2 with
        | .error e => .error e
        | .ok (rest2, ws3) => .ok (item2 :: rest2, ws3)

/-- The `Object.entries(payload)` loop of `processRelationPayload`: keys
outside `RELATION_OPERATIONS` are skipped; a missing target model is
`TENANT_META_MISSING` in strict mode without RLS and skipped otherwise;
otherwise the operation-specific sub-check runs and the result is
written back. -/
def relOpsLoop (g : GuardCtx) (fuel : Nat) (parentModel relationField : String)
    (config : NestedTarget) (entries : List (String × JsonVal))
    (acc : List (String × JsonVal)) (path : String)
    (ws : List TenantGuardWarning) : GuardRes (List (String × JsonVal)) :=
  match entries with
  | [] => .ok (acc, ws)
  | (operation, value) :: rest =>
    if relationOperations.contains operation then
      match truthyStr (resolveTargetModel config operation) with
      | none =>
        if g.mode == .strict && !g.rlsEnabled then
          .error (mkErr g .TENANT_META_MISSING parentModel operation path .undef)
        else
          match fuel with
          | 0 => .ok (acc, ws)
          | f + 1 => relOpsLoop g f parentModel relationField config rest acc path ws
      | some targetModel =>
        match fuel with
        | 0 => .ok (acc, ws)
        | f + 1 =>
          match relOpApply g f targetModel operation value (toPath path operation) ws with
          | .error e => .error e
          | .ok (value2, ws2) =>
            relOpsLoop g f parentModel relationField config rest
              (setField acc operation value2) path ws2
    else
      match fuel with
      | 0 => .ok (acc, ws)
      | f + 1 => relOpsLoop g f parentModel relationField config rest acc path ws

/-- The `switch (operation)` body of `processRelationPayload` for one
relation-operation key. -/
def relOpApply (g : GuardCtx) (fuel : Nat) (targetModel operation : String)
    (value : JsonVal) (opPath : String) (ws : List TenantGuardWarning) :
    GuardRes JsonVal :=
  match fuel with
  | 0 => .ok (value, ws)
  | f + 1 =>
    match operation with
    | "create" => ensureData g f targetModel value opPath true true "create" ws
    | "createMany" =>
      match value with
      | .obj vfields =>
        match ensureData g f targetModel ((lookupField vfields "data").getD .undef)
            (toPath opPath "data") true true "create" ws with
        | .error e => .error e
        | .ok (d2, ws2) => .ok (.obj (setField vfields "data" d2), ws2)
      | _ => .ok (value, ws)
    | "update" | "updateMany" =>
      match value with
      | .obj vfields =>
        match whereStep g targetModel vfields opPath operation ws with
        | .error e => .error e
        | .ok (vf1, ws1) =>
          let dataVal := (lookupField vfields "data").getD .undef
          if dataVal.isUndef then .ok (.obj vf1, ws1)
          else
            match ensureData g f targetModel dataVal (toPath opPath "data") false false
                "update" ws1 with
            | .error e => .error e
            | .ok (d2, ws2) => .ok (.obj (setField vf1 "data" d2), ws2)
      | _ => .ok (value, ws)
    | "upsert" =>
      match value with
      | .obj vfields =>
        match whereStep g targetModel vfields opPath operation ws with
        | .error e => .error e
        | .ok (vf1, ws1) =>
          let createVal := (lookupField vfields "create").getD .undef
          match (if createVal.isUndef then .ok (vf1, ws1)
                 else
                   match ensureData g f targetModel createVal (toPath opPath "create")
                       true true "create" ws1 with
                   | .error e => .error e
                   | .ok (c2, ws2) => .ok (setField vf1 "create" c2, ws2) :
                 GuardRes (List (String × JsonVal))) with
          | .error e => .error e
          | .ok (vf2, ws2) =>
            let updateVal := (lookupField vfields "update").getD .undef
            if updateVal.isUndef then .ok (.obj vf2, ws2)
            else
              match ensureData g f targetModel updateVal (toPath opPath "update") false
                  false "update" ws2 with
              | .error e => .error e
              | .ok (u2, ws3) => .ok (.obj (setField vf2 "update" u2), ws3)
      | _ => .ok (value, ws)
    | "connect" | "set" | "disconnect" =>
      ensureConnectPayload g targetModel value opPath operation ws
    | "connectOrCreate" => ensureConnectOrCreate g f targetModel value opPath ws
    | "deleteMany" =>
      match value with
      | .arr items =>
        match ensureWhereList g targetModel items opPath 0 false operation ws with
        | .error e => .error e
        | .ok (items2, ws2) => .ok (.arr items2, ws2)
      | _ => ensureWhere g targetModel value opPath false operation ws
    | _ => .ok (value, ws)

/-- `ensureConnectOrCreate`: validates `where` (as a where clause) and
`create` (as a create payload) independently, when truthy. -/
def ensureConnectOrCreate (g : GuardCtx) (fuel : Nat) (model : String)
    (payload : JsonVal) (path : String) (ws : List TenantGuardWarning) :
    GuardRes JsonVal :=
  match fuel with
  | 0 => .ok (payload, ws)
  | f + 1 =>
    match payload with
    | .arr items =>
      match ensureConnectOrCreateList g f model items path 0 ws with
      | .error e => .error e
      | .ok (items2, ws2) => .ok (.arr items2, ws2)
    | .obj rfields =>
      let whereVal := (lookupField rfields "where").getD .undef
      match (if truthy whereVal then
               match ensureWhere g model whereVal (toPath path "where") true
                   "connectOrCreate" ws with
               | .error e => .error e
               | .ok (w2, ws2) => .ok (setField rfields "where" w2, ws2)
             else .ok (rfields, ws) :
             GuardRes (List (String × JsonVal))) with
      | .error e => .error e
      | .ok (rf1, ws1) =>
        let createVal := (lookupField rfields "create").getD .undef
        if truthy createVal then
          match ensureData g f model createVal (toPath path "create") true true
              "create" ws1 with
          | .error e => .error e
          | .ok (c2, ws2) => .ok (.obj (setField rf1 "create" c2), ws2)
        else .ok (.obj rf1, ws1)
    | _ => .error (mkErr g .TENANT_FIELD_MISSING model "connectOrCreate" path .undef)

def ensureConnectOrCreateList (g : GuardCtx) (fuel : Nat) (model : String)
    (items : List JsonVal) (path : String) (idx : Nat)
    (ws : List TenantGuardWarning) : GuardRes (List JsonVal) :=
  match items with
  | [] => .ok ([], ws)
  | item :: rest =>
    match fuel with
    | 0 => .ok (item :: rest, ws)
    | f + 1 =>
      match ensureConnectOrCreate g f model item (toIndexPath path idx) ws with
      | .error e => .error e
      | .ok (item2, ws2) =>
        match ensureConnectOrCreateList g f model rest path (idx + 1) ws2 with
        | .error e => .error e
        | .ok (rest2, ws3) => .ok (item2 :: rest2, ws3)

end

/-- `ensureCreateMany`: `args.data` as an array of rows, or the
`\x7bdata: [...]\x7d` wrapper form; each row is a required-tenant create. -/
def ensureCreateMany (g : GuardCtx) (fuel : Nat) (model : String)
    (args : List (String × JsonVal)) (pathRoot : String)
    (ws : List TenantGuardWarning) : GuardRes (List (String × JsonVal)) :=
  match (lookupField args "data").getD .undef with
  | .arr items =>
    match ensureDataList g fuel model items (toPath pathRoot "data") 0 true true
        "create" ws with
    | .error e => .error e
    | .ok (items2, ws2) => .ok (setField args "data" (.arr items2), ws2)
  | .obj dfields =>
    match (lookupField dfields "data").getD .undef with
    | .arr pitems =>
      match ensureDataList g fuel model pitems
          (toPath (toPath pathRoot "data") "data") 0 true true "create" ws with
      | .error e => .error e
      | .ok (p2, ws2) =>
        .ok (setField args "data" (.obj (setField dfields "data" (.arr p2))), ws2)
    | _ => .ok (args, ws)
  | _ => .ok (args, ws)

/-- Size of the guard metadata, used only for fuel adequacy (the
nested-target loop consumes one fuel unit per metadata entry at each
payload level). -/
def metaFuel : TenantMeta → Nat
  | [] => 0
  | (_, m) :: rest => 1 + (m.nestedTargets.getD []).length + metaFuel rest

/-- Fuel supplied by `enforce`: generous upper bound on the recursion
depth of a walk of `args` (the `+ 1` keeps it in successor form). -/
def enforceFuel (g : GuardCtx) (args : JsonVal) : Nat :=
  jsize args * (2 + metaFuel g.meta) + 1

/-- Write-back of a processed top-level argument: the source mutates
`args.data` / `args.where` / ... in place, so a key that was absent
stays absent (the walker never invents a top-level key). -/
def putBack (fields : List (String × JsonVal)) (key : String) (v : JsonVal) :
    List (String × JsonVal) :=
  match lookupField fields key with
  | none => fields
  | some _ => setField fields key v

/-- `enforce(\x7bmodel, operation, args\x7d)`: dispatches on the write
operation, validating/rewriting `data`, `where`, `create` and `update`
as in the source's `switch`; non-object args and unknown operations pass
through unchanged. -/
def enforce (g : GuardCtx) (model operation : String) (args : JsonVal) :
    GuardRes JsonVal :=
  match args with
  | .obj afields =>
    let fuel := enforceFuel g args
    let pathRoot := model
    match operation with
    | "create" =>
      match ensureData g fuel model ((lookupField afields "data").getD .undef)
          (toPath pathRoot "data") true true "create" [] with
      | .error e => .error e
      | .ok (d2, ws) => .ok (.obj (putBack afields "data" d2), ws)
    | "createMany" =>
      match ensureCreateMany g fuel model afields pathRoot [] with
      | .error e => .error e
      | .ok (a2, ws) => .ok (.obj a2, ws)
    | "update" =>
      match ensureWhere g model ((lookupField afields "where").getD .undef)
          (toPath pathRoot "where") true "update" [] with
      | .error e => .error e
      | .ok (w2, ws1) =>
        match ensureData g fuel model ((lookupField afields "data").getD .undef)
            (toPath pathRoot "data") false false "update" ws1 with
        | .error e => .error e
        | .ok (d2, ws2) => .ok (.obj (putBack (putBack afields "where" w2) "data" d2), ws2)
    | "delete" =>
      match ensureWhere g model ((lookupField afields "where").getD .undef)
          (toPath pathRoot "where") true "delete" [] with
      | .error e => .error e
      | .ok (w2, ws1) => .ok (.obj (putBack afields "where" w2), ws1)
    | "updateMany" =>
      match ensureWhere g model ((lookupField afields "where").getD .undef)
          (toPath pathRoot "where") true "updateMany" [] with
      | .error e => .error e
      | .ok (w2, ws1) =>
        match ensureData g fuel model ((lookupField afields "data").getD .undef)
            (toPath pathRoot "data") false false "update" ws1 with
        | .error e => .error e
        | .ok (d2, ws2) => .ok (.obj (putBack (putBack afields "where" w2) "data" d2), ws2)
    | "deleteMany" =>
      match ensureWhere g model ((lookupField afields "where").getD .undef)
          (toPath pathRoot "where") true "deleteMany" [] with
      | .error e => .error e
      | .ok (w2, ws1) => .ok (.obj (putBack afields "where" w2), ws1)
    | "upsert" =>
      match ensureWhere g model ((lookupField afields "where").getD .undef)
          (toPath pathRoot "where") true "upsert" [] with
      | .error e => .error e
      | .ok (w2, ws1) =>
        match ensureData g fuel model ((lookupField afields "create").getD .undef)
            (toPath pathRoot "create") true true "create" ws1 with
        | .error e => .error e
        | .ok (c2, ws2) =>
          match ensureData g fuel model ((lookupField afields "update").getD .undef)
              (toPath pathRoot "update") false false "update" ws2 with
          | .error e => .error e
          | .ok (u2, ws3) =>
            .ok (.obj (putBack (putBack (putBack afields "where" w2) "create" c2)
                  "update" u2), ws3)
    | _ => .ok (args, [])
  | _ => .ok (args, [])

/-! ## Observations on the policy engine, used to state the claims -/

/-- Does the rule apply to this action and input? -/
def ruleMatches {I : Type} (r : PolicyRule I) (a : String) (i : I) : Bool :=
  (evaluateRule r a i).isSome

/-- The first rule in declaration order that matches with effect `deny`. -/
def firstMatchingDeny {I : Type} (rules : List (PolicyRule I)) (a : String) (i : I) :
    Option (PolicyRule I) :=
  rules.find? (fun r => r.effect == .deny && ruleMatches r a i)

/-- The decision of the first matching rule in declaration order. -/
def firstMatch {I : Type} (rules : List (PolicyRule I)) (a : String) (i : I) :
    Option PolicyDecision :=
  rules.findSome? (fun r => evaluateRule r a i)

/-- The merge, in encounter order, of the `readMask`s of every matching
rule's decision. -/
def aggReadMask {I : Type} : List (PolicyRule I) → String → I → Option MaskRec →
    Option MaskRec
  | [], _, _, acc => acc
  | r :: rest, a, i, acc =>
    match evaluateRule r a i with
    | some d => aggReadMask rest a i (mergeActionMasks acc d.readMask)
    | none => aggReadMask rest a i acc

/-- The merge, in encounter order, of the `writeMask`s of every matching
rule's decision. -/
def aggWriteMask {I : Type} : List (PolicyRule I) → String → I → Option MaskRec →
    Option MaskRec
  | [], _, _, acc => acc
  | r :: rest, a, i, acc =>
    match evaluateRule r a i with
    | some d => aggWriteMask rest a i (mergeActionMasks acc d.writeMask)
    | none => aggWriteMask rest a i acc

/-! ## Helper lemmas -/

/-- Every decision produced by `evaluateRule` carries the rule's effect
as its `allow` flag and the rule's id as `matchedRule`. -/
theorem evaluateRule_some_allow_id {I : Type} {r : PolicyRule I} {a : String} {i : I}
    {d : PolicyDecision} (h : evaluateRule r a i = some d) :
    d.allow = (r.effect == .allow) ∧ d.matchedRule = some r.id := by
  unfold evaluateRule at h
  split at h
  · split at h
    · cases h
      exact ⟨rfl, rfl⟩
    · split at h
      · split at h
        · cases h
          exact ⟨rfl, rfl⟩
        · exact Option.noConfusion h
      · split at h
        · cases h
          exact ⟨rfl, rfl⟩
        · exact Option.noConfusion h
  · exact Option.noConfusion h

/-- When some deny rule matches, `checkLoop` returns exactly the decision
of the first matching deny rule, whatever the accumulators hold. -/
theorem checkLoop_firstDeny {I : Type} (dflt : PolicyDecisionFactory I) (a : String)
    (i : I) :
    ∀ (rules : List (PolicyRule I)) (fa : Option PolicyDecision)
      (aggR aggW : Option MaskRec) (r0 : PolicyRule I),
      firstMatchingDeny rules a i = some r0 →
      ∃ d0, evaluateRule r0 a i = some d0 ∧
        checkLoop dflt a i rules fa aggR aggW = d0 := by
  intro rules
  induction rules with
  | nil => intro fa aggR aggW r0 h; simp [firstMatchingDeny] at h
  | cons r rest ih =>
    intro fa aggR aggW r0 h
    cases hd : evaluateRule r a i with
    | none =>
      have hm : ruleMatches r a i = false := by simp [ruleMatches, hd]
      rw [firstMatchingDeny, List.find?_cons] at h
      rw [hm, Bool.and_false] at h
      obtain ⟨d0, hd0, hloop⟩ := ih fa aggR aggW r0 h
      exact ⟨d0, hd0, by rw [checkLoop, hd]; exact hloop⟩
    | some d =>
      have hai := evaluateRule_some_allow_id hd
      have hm : ruleMatches r a i = true := by simp [ruleMatches, hd]
      cases heff : r.effect with
      | deny =>
        have hfd : firstMatchingDeny (r :: rest) a i = some r := by
          rw [firstMatchingDeny, List.find?_cons, heff, hm]
          rfl
        rw [hfd] at h
        cases h
        refine ⟨d, hd, ?_⟩
        have hda : d.allow = false := by rw [hai.1, heff]; rfl
        rw [checkLoop, hd]
        simp [hda]
      | allow =>
        rw [firstMatchingDeny, List.find?_cons, heff] at h
        simp only [show (PolicyEffect.allow == PolicyEffect.deny) = false from rfl,
          Bool.false_and] at h
        obtain ⟨d0, hd0, hloop⟩ := ih (fa <|> some d)
          (mergeActionMasks aggR d.readMask) (mergeActionMasks aggW d.writeMask) r0 h
        refine ⟨d0, hd0, ?_⟩
        have hda : d.allow = true := by rw [hai.1, heff]; rfl
        rw [checkLoop, hd]
        simp only [hda, if_true]
        exact hloop

/-! ## C1: deny wins -/

/-- C1: for every policy and every action/input such that some deny rule
matches and some allow rule matches, `checkDetailed` returns a decision
with `allow = false` whose `matchedRule` is the id of the first matching
deny rule in declaration order, regardless of where the deny rule
appears relative to the matching allow rules. -/
theorem checkDetailed_deny_wins {I : Type} (config : PolicyConfig I) (a : String)
    (i : I) (r0 : PolicyRule I)
    (_hallow : ∃ r ∈ config.rules, r.effect = .allow ∧ ruleMatches r a i = true)
    (hdeny : firstMatchingDeny config.rules a i = some r0) :
    (checkDetailed config a i).allow = false ∧
    (checkDetailed config a i).matchedRule = some r0.id := by
  obtain ⟨d0, hd0, hloop⟩ := checkLoop_firstDeny
    (config.defaultDecision.getD (defaultDenyFactory I)) a i config.rules
    none none none r0 hdeny
  have hai := evaluateRule_some_allow_id hd0
  have heff : r0.effect = .deny := by
    have hp := List.find?_some hdeny
    exact eq_of_beq ((Bool.and_eq_true _ _).mp hp).1
  constructor
  · rw [checkDetailed, hloop, hai.1, heff]
    rfl
  · rw [checkDetailed, hloop, hai.2]

/-- Fixture for the C1 witness: a matching allow rule declared before a
matching deny rule. -/
def ruleC1allow : PolicyRule Unit :=
  { id := "allow-edit", action := .single "act", effect := .allow }

def ruleC1deny : PolicyRule Unit :=
  { id := "deny-published", action := .single "act", effect := .deny }

def cfgC1 : PolicyConfig Unit := { rules := [ruleC1allow, ruleC1deny] }

/-- C1 witness: on a concrete policy where the allow rule is declared
first, the later matching deny rule still decides. -/
theorem checkDetailed_deny_wins_witness :
    (∃ r ∈ cfgC1.rules, r.effect = .allow ∧ ruleMatches r "act" () = true) ∧
    firstMatchingDeny cfgC1.rules "act" () = some ruleC1deny ∧
    (checkDetailed cfgC1 "act" ()).allow = false ∧
    (checkDetailed cfgC1 "act" ()).matchedRule = some "deny-published" := by
  have hallow : ∃ r ∈ cfgC1.rules, r.effect = .allow ∧ ruleMatches r "act" () = true :=
    ⟨ruleC1allow, List.mem_cons_self _ _, rfl, rfl⟩
  have hdeny : firstMatchingDeny cfgC1.rules "act" () = some ruleC1deny := rfl
  have h := checkDetailed_deny_wins cfgC1 "act" () ruleC1deny hallow hdeny
  exact ⟨hallow, hdeny, h.1, h.2⟩

/-! ## C9: no mask accumulation on deny (corrected) -/

/-- Fixtures for the C9 counterexample: an allow rule that contributes a
writeMask, followed by a deny rule that itself carries a writeMask. -/
def ruleC9allow : PolicyRule Unit :=
  { id := "allow-mask", action := .single "act", effect := .allow,
    writeMask := some (.value [("a", .bool true)]) }

def ruleC9deny : PolicyRule Unit :=
  { id := "deny-mask", action := .single "act", effect := .deny,
    writeMask := some (.value [("b", .bool true)]) }

def cfgC9 : PolicyConfig Unit := { rules := [ruleC9allow, ruleC9deny] }

/-- C9 counterexample: a deny rule matching after a mask-contributing
allow rule does not always yield a maskless decision — `buildDecision`
attaches the deny rule's own `writeMask`, so the claim's "no readMask
and no writeMask at all" fails on this policy. -/
theorem checkDetailed_deny_mask_counterexample :
    ruleMatches ruleC9allow "act" () = true ∧
    aggWriteMask [ruleC9allow] "act" () none = some [("a", .bool true)] ∧
    firstMatchingDeny cfgC9.rules "act" () = some ruleC9deny ∧
    (checkDetailed cfgC9 "act" ()).writeMask = some [("b", .bool true)] ∧
    (checkDetailed cfgC9 "act" ()).writeMask ≠ none := by
  refine ⟨rfl, rfl, rfl, rfl, ?_⟩
  rw [show (checkDetailed cfgC9 "act" ()).writeMask = some [("b", .bool true)] from rfl]
  exact fun h => Option.noConfusion h

/-- C9 (amended): when a deny rule matches, `checkDetailed` returns
exactly that rule's own evaluated decision — no mask accumulated from
earlier matching allow rules is attached — and in particular, if the
deny rule's decision itself carries no masks, the returned decision has
no `readMask` and no `writeMask` at all. -/
theorem checkDetailed_deny_discards_accumulated_masks {I : Type}
    (config : PolicyConfig I) (a : String) (i : I) (r0 : PolicyRule I)
    (d0 : PolicyDecision)
    (hdeny : firstMatchingDeny config.rules a i = some r0)
    (hd0 : evaluateRule r0 a i = some d0) :
    checkDetailed config a i = d0 ∧
    (d0.readMask = none → d0.writeMask = none →
      (checkDetailed config a i).readMask = none ∧
      (checkDetailed config a i).writeMask = none) := by
  obtain ⟨d1, hd1, hloop⟩ := checkLoop_firstDeny
    (config.defaultDecision.getD (defaultDenyFactory I)) a i config.rules
    none none none r0 hdeny
  rw [hd0] at hd1
  have hdd : d1 = d0 := (Option.some.inj hd1).symm
  have hres : checkDetailed config a i = d0 := by rw [checkDetailed, hloop, hdd]
  refine ⟨hres, fun h1 h2 => ?_⟩
  rw [hres]
  exact ⟨h1, h2⟩

/-- Fixtures for the C9 witness: two mask-contributing allow rules
followed by a deny rule with no masks. -/
def ruleC9allow2 : PolicyRule Unit :=
  { id := "allow-mask-2", action := .single "act", effect := .allow,
    readMask := some (.value [("r", .bool true)]) }

def ruleC9denyPlain : PolicyRule Unit :=
  { id := "deny-plain", action := .single "act", effect := .deny }

def cfgC9w : PolicyConfig Unit := { rules := [ruleC9allow, ruleC9allow2, ruleC9denyPlain] }

/-- The decision the plain deny rule evaluates to. -/
def decisionC9deny : PolicyDecision :=
  { allow := false, matchedRule := some "deny-plain", effect := .deny,
    contextAction := "act" }

/-- C9 witness: with two mask-contributing allow rules before a maskless
deny rule, the returned decision has no masks at all. -/
theorem checkDetailed_deny_discards_accumulated_masks_witness :
    firstMatchingDeny cfgC9w.rules "act" () = some ruleC9denyPlain ∧
    (checkDetailed cfgC9w "act" ()).readMask = none ∧
    (checkDetailed cfgC9w "act" ()).writeMask = none := by
  have h := checkDetailed_deny_discards_accumulated_masks cfgC9w "act" ()
    ruleC9denyPlain decisionC9deny rfl rfl
  exact ⟨rfl, (h.2 rfl rfl).1, (h.2 rfl rfl).2⟩

/-! ## C4: first-allow base, mask aggregation -/

/-- The mask merge yields `undefined` exactly when both sides are. -/
theorem mergeActionMasks_eq_none_iff (x y : Option MaskRec) :
    mergeActionMasks x y = none ↔ x = none ∧ y = none := by
  cases x <;> cases y <;> simp [mergeActionMasks, mergeMaskRecords]

/-- If the aggregated readMask is `undefined`, no matching rule supplied
one (and neither did the accumulator). -/
theorem aggReadMask_eq_none {I : Type} (a : String) (i : I) :
    ∀ (rules : List (PolicyRule I)) (acc : Option MaskRec),
      aggReadMask rules a i acc = none →
      acc = none ∧ ∀ r ∈ rules, ∀ d, evaluateRule r a i = some d → d.readMask = none := by
  intro rules
  induction rules with
  | nil =>
    intro acc h
    exact ⟨h, by simp⟩
  | cons r rest ih =>
    intro acc h
    cases hd : evaluateRule r a i with
    | none =>
      simp only [aggReadMask, hd] at h
      obtain ⟨hacc, hall⟩ := ih acc h
      refine ⟨hacc, fun r2 hr2 d hd2 => ?_⟩
      rcases List.mem_cons.mp hr2 with heq | hr2
      · subst heq; rw [hd] at hd2; exact Option.noConfusion hd2
      · exact hall r2 hr2 d hd2
    | some d =>
      simp only [aggReadMask, hd] at h
      obtain ⟨hacc, hall⟩ := ih _ h
      have hmm := (mergeActionMasks_eq_none_iff acc d.readMask).mp hacc
      refine ⟨hmm.1, fun r2 hr2 d2 hd2 => ?_⟩
      rcases List.mem_cons.mp hr2 with heq | hr2
      · subst heq
        rw [hd] at hd2
        rw [← Option.some.inj hd2]
        exact hmm.2
      · exact hall r2 hr2 d2 hd2

/-- If the aggregated writeMask is `undefined`, no matching rule supplied
one (and neither did the accumulator). -/
theorem aggWriteMask_eq_none {I : Type} (a : String) (i : I) :
    ∀ (rules : List (PolicyRule I)) (acc : Option MaskRec),
      aggWriteMask rules a i acc = none →
      acc = none ∧ ∀ r ∈ rules, ∀ d, evaluateRule r a i = some d → d.writeMask = none := by
  intro rules
  induction rules with
  | nil =>
    intro acc h
    exact ⟨h, by simp⟩
  | cons r rest ih =>
    intro acc h
    cases hd : evaluateRule r a i with
    | none =>
      simp only [aggWriteMask, hd] at h
      obtain ⟨hacc, hall⟩ := ih acc h
      refine ⟨hacc, fun r2 hr2 d hd2 => ?_⟩
      rcases List.mem_cons.mp hr2 with heq | hr2
      · subst heq; rw [hd] at hd2; exact Option.noConfusion hd2
      · exact hall r2 hr2 d hd2
    | some d =>
      simp only [aggWriteMask, hd] at h
      obtain ⟨hacc, hall⟩ := ih _ h
      have hmm := (mergeActionMasks_eq_none_iff acc d.writeMask).mp hacc
      refine ⟨hmm.1, fun r2 hr2 d2 hd2 => ?_⟩
      rcases List.mem_cons.mp hr2 with heq | hr2
      · subst heq
        rw [hd] at hd2
        rw [← Option.some.inj hd2]
        exact hmm.2
      · exact hall r2 hr2 d2 hd2

/-- A first-match decision comes from some rule of the list. -/
theorem firstMatch_mem {I : Type} (a : String) (i : I) :
    ∀ (rules : List (PolicyRule I)) (d : PolicyDecision),
      firstMatch rules a i = some d → ∃ r ∈ rules, evaluateRule r a i = some d := by
  intro rules
  induction rules with
  | nil => intro d h; simp [firstMatch] at h
  | cons r rest ih =>
    intro d h
    cases hd : evaluateRule r a i with
    | some d1 =>
      simp only [firstMatch, List.findSome?_cons, hd] at h
      exact ⟨r, List.mem_cons_self _ _, by rw [hd, h]⟩
    | none =>
      simp only [firstMatch, List.findSome?_cons, hd] at h
      obtain ⟨r2, hr2, hd2⟩ := ih d h
      exact ⟨r2, List.mem_cons_of_mem _ hr2, hd2⟩

/-- Absorption of `orElse` once a value is present. -/
theorem orElse_absorb {α : Type} (o : Option α) (x : α) (y : Option α) :
    ((o <|> some x) <|> y) = (o <|> some x) := by
  cases o <;> rfl

/-- The rule loop of `checkDetailed` when no deny rule matches: the
result is the first matching decision, its masks replaced by the
aggregated masks (kept unchanged when no mask was aggregated), or the
default decision when nothing matched. -/
theorem checkLoop_noDeny {I : Type} (dflt : PolicyDecisionFactory I) (a : String)
    (i : I) :
    ∀ (rules : List (PolicyRule I)) (fa : Option PolicyDecision)
      (aggR aggW : Option MaskRec),
      (∀ r ∈ rules, r.effect = .deny → ruleMatches r a i = false) →
      checkLoop dflt a i rules fa aggR aggW =
        (match fa <|> firstMatch rules a i with
         | some d0 =>
           if (aggReadMask rules a i aggR).isNone && (aggWriteMask rules a i aggW).isNone
           then d0
           else { d0 with
                  readMask := match aggReadMask rules a i aggR with
                              | some m => some m
                              | none => d0.readMask
                  writeMask := match aggWriteMask rules a i aggW with
                               | some m => some m
                               | none => d0.writeMask }
         | none => normaliseDecision dflt a i) := by
  intro rules
  induction rules with
  | nil =>
    intro fa aggR aggW _
    cases fa <;> rfl
  | cons r rest ih =>
    intro fa aggR aggW hyp
    have hrest : ∀ r2 ∈ rest, r2.effect = .deny → ruleMatches r2 a i = false :=
      fun r2 h2 => hyp r2 (List.mem_cons_of_mem _ h2)
    cases hd : evaluateRule r a i with
    | none =>
      rw [checkLoop, hd]
      rw [ih fa aggR aggW hrest]
      simp only [firstMatch, List.findSome?_cons, hd, aggReadMask, aggWriteMask]
    | some d =>
      have heff : r.effect = .allow := by
        cases he : r.effect
        · rfl
        · exfalso
          have := hyp r (List.mem_cons_self _ _) he
          rw [ruleMatches, hd] at this
          exact Bool.noConfusion this
      have hda : d.allow = true := by
        rw [(evaluateRule_some_allow_id hd).1, heff]; rfl
      rw [checkLoop, hd]
      simp only [hda, if_true]
      rw [ih (fa <|> some d) (mergeActionMasks aggR d.readMask)
        (mergeActionMasks aggW d.writeMask) hrest]
      simp only [firstMatch, List.findSome?_cons, hd, aggReadMask, aggWriteMask,
        orElse_absorb]

/-- C4: for every policy and action/input with no matching deny rule and
at least one matching allow rule, the decision returned by
`checkDetailed` has the `reason`, `matchedRule`, `attrs` (and effect) of
the first matching allow rule in declaration order, while its
`readMask`/`writeMask` are the merge, in encounter order, of the masks
of every matching allow rule; if no matching rule produced any mask, the
first allow's decision is returned unchanged. -/
theorem checkDetailed_first_allow_aggregates_masks {I : Type} (config : PolicyConfig I)
    (a : String) (i : I) (d0 : PolicyDecision)
    (hnodeny : ∀ r ∈ config.rules, r.effect = .deny → ruleMatches r a i = false)
    (hfirst : firstMatch config.rules a i = some d0) :
    (checkDetailed config a i).reason = d0.reason ∧
    (checkDetailed config a i).matchedRule = d0.matchedRule ∧
    (checkDetailed config a i).attrs = d0.attrs ∧
    (checkDetailed config a i).effect = d0.effect ∧
    (checkDetailed config a i).readMask = aggReadMask config.rules a i none ∧
    (checkDetailed config a i).writeMask = aggWriteMask config.rules a i none ∧
    (aggReadMask config.rules a i none = none →
      aggWriteMask config.rules a i none = none →
      checkDetailed config a i = d0) := by
  have hloop := checkLoop_noDeny (config.defaultDecision.getD (defaultDenyFactory I))
    a i config.rules none none none hnodeny
  rw [checkDetailed, hloop]
  simp only [hfirst]
  obtain ⟨r0, hr0, hev0⟩ := firstMatch_mem a i config.rules d0 hfirst
  cases haR : aggReadMask config.rules a i none with
  | none =>
    have hd0r : d0.readMask = none :=
      (aggReadMask_eq_none a i config.rules none haR).2 r0 hr0 d0 hev0
    cases haW : aggWriteMask config.rules a i none with
    | none =>
      simp only [Option.isNone_none, Bool.and_self, if_true]
      exact ⟨rfl, rfl, rfl, rfl, hd0r,
        (aggWriteMask_eq_none a i config.rules none haW).2 r0 hr0 d0 hev0,
        fun _ _ => rfl⟩
    | some mW =>
      simp only [Option.isNone_none, Option.isNone_some, Bool.and_false, if_false]
      refine ⟨rfl, rfl, rfl, rfl, hd0r, rfl, fun _ hW => Option.noConfusion hW⟩
  | some mR =>
    have hd0w : aggWriteMask config.rules a i none = none → d0.writeMask = none :=
      fun hW => (aggWriteMask_eq_none a i config.rules none hW).2 r0 hr0 d0 hev0
    cases haW : aggWriteMask config.rules a i none with
    | none =>
      simp only [Option.isNone_none, Option.isNone_some, Bool.false_and, if_false]
      exact ⟨rfl, rfl, rfl, rfl, rfl, hd0w haW, fun hR _ => Option.noConfusion hR⟩
    | some mW =>
      simp only [Option.isNone_some, Bool.false_and, if_false]
      exact ⟨rfl, rfl, rfl, rfl, rfl, rfl, fun hR _ => Option.noConfusion hR⟩

/-- Fixtures for the C4 witness: two allow rules for the same action with
disjoint single-field writeMasks. -/
def ruleC4a : PolicyRule Unit :=
  { id := "editor-base", action := .single "post.update", effect := .allow,
    writeMask := some (.value [("title", .bool true)]) }

def ruleC4b : PolicyRule Unit :=
  { id := "owner-bonus", action := .single "post.update", effect := .allow,
    writeMask := some (.value [("body", .bool true)]) }

def cfgC4 : PolicyConfig Unit := { rules := [ruleC4a, ruleC4b] }

/-- The decision the first allow rule evaluates to. -/
def decisionC4first : PolicyDecision :=
  { allow := true, matchedRule := some "editor-base", effect := .allow,
    contextAction := "post.update", writeMask := some [("title", .bool true)] }

/-- C4 witness: two matching allow rules with disjoint writeMasks — the
base decision is the first allow's, and the final writeMask contains
both fields. -/
theorem checkDetailed_first_allow_aggregates_masks_witness :
    (∀ r ∈ cfgC4.rules, r.effect = .deny → ruleMatches r "post.update" () = false) ∧
    firstMatch cfgC4.rules "post.update" () = some decisionC4first ∧
    (checkDetailed cfgC4 "post.update" ()).matchedRule = some "editor-base" ∧
    (checkDetailed cfgC4 "post.update" ()).writeMask =
      some [("title", .bool true), ("body", .bool true)] := by
  have hnodeny : ∀ r ∈ cfgC4.rules, r.effect = .deny →
      ruleMatches r "post.update" () = false := by
    intro r hr
    rcases List.mem_cons.mp hr with heq | hr2
    · subst heq; intro h; exact absurd h (by decide)
    · rcases List.mem_cons.mp hr2 with heq | hr3
      · subst heq; intro h; exact absurd h (by decide)
      · exact absurd hr3 (List.not_mem_nil _)
  have h := checkDetailed_first_allow_aggregates_masks cfgC4 "post.update" ()
    decisionC4first hnodeny rfl
  refine ⟨hnodeny, rfl, ?_, ?_⟩
  · rw [h.2.1]; rfl
  · rw [h.2.2.2.2.2.1]; rfl

/-! ## C8: default deny -/

/-- When no rule matches, the first-match scan is empty. -/
theorem firstMatch_none {I : Type} (a : String) (i : I) :
    ∀ (rules : List (PolicyRule I)),
      (∀ r ∈ rules, ruleMatches r a i = false) → firstMatch rules a i = none := by
  intro rules
  induction rules with
  | nil => intro _; rfl
  | cons r rest ih =>
    intro hyp
    cases hd : evaluateRule r a i with
    | some d =>
      exfalso
      have := hyp r (List.mem_cons_self _ _)
      rw [ruleMatches, hd] at this
      exact Bool.noConfusion this
    | none =>
      simp only [firstMatch, List.findSome?_cons, hd]
      exact ih (fun r2 h2 => hyp r2 (List.mem_cons_of_mem _ h2))

/-- C8: for every policy constructed without a custom default decision,
and every action/input for which no rule matches, `checkDetailed`
returns exactly the default-deny decision (`allow = false`, reason
`"DEFAULT_DENY"`, effect `default`, `matchedRule` absent). -/
theorem checkDetailed_default_deny {I : Type} (rules : List (PolicyRule I))
    (a : String) (i : I)
    (hnone : ∀ r ∈ rules, ruleMatches r a i = false) :
    checkDetailed { rules := rules } a i =
      { allow := false, reason := some "DEFAULT_DENY", matchedRule := none,
        effect := .default, attrs := none, contextAction := a,
        readMask := none, writeMask := none } := by
  have hnodeny : ∀ r ∈ rules, r.effect = .deny → ruleMatches r a i = false :=
    fun r hr _ => hnone r hr
  have hloop := checkLoop_noDeny (defaultDenyFactory I) a i rules none none none hnodeny
  rw [checkDetailed]
  rw [show ({ rules := rules } : PolicyConfig I).defaultDecision.getD
    (defaultDenyFactory I) = defaultDenyFactory I from rfl]
  rw [hloop]
  simp only [firstMatch_none a i rules hnone]
  rfl

def cfgC8 : PolicyConfig Unit := { rules := [ruleC1allow] }

/-- C8 witness: a policy whose single rule is for a different action
yields the default-deny decision. -/
theorem checkDetailed_default_deny_witness :
    (∀ r ∈ cfgC8.rules, ruleMatches r "other" () = false) ∧
    checkDetailed cfgC8 "other" () =
      { allow := false, reason := some "DEFAULT_DENY", matchedRule := none,
        effect := .default, attrs := none, contextAction := "other",
        readMask := none, writeMask := none } := by
  have hnone : ∀ r ∈ cfgC8.rules, ruleMatches r "other" () = false := by
    intro r hr
    rcases List.mem_cons.mp hr with heq | hr2
    · subst heq; rfl
    · exact absurd hr2 (List.not_mem_nil _)
  exact ⟨hnone, checkDetailed_default_deny [ruleC1allow] "other" () hnone⟩

/-! ## C5: merging `true` with a nested mask (corrected) -/

mutual

/-- A well-formed mask record: every value is the literal `true` or a
nested well-formed mask (the shape `FieldMask` describes). -/
def maskWF : MaskRec → Bool
  | [] => true
  | (_, v) :: rest => maskWFVal v && maskWF rest

def maskWFVal : JsonVal → Bool
  | .bool true => true
  | .obj nested => maskWF nested
  | _ => false

end

theorem jsize_pos (v : JsonVal) : 1 ≤ jsize v := by
  cases v <;> simp [jsize]

theorem mergeMaskFuel_nil (f : Nat) (result : MaskRec) :
    mergeMaskFuel f result [] = result := by
  cases f <;> rfl

theorem cloneMask_of_wf_aux :
    ∀ (n : Nat) (m : MaskRec), jsizeFields m ≤ n → maskWF m = true → cloneMask m = m := by
  intro n
  induction n with
  | zero =>
    intro m hm _
    cases m with
    | nil => rfl
    | cons e rest =>
      exfalso
      obtain ⟨k, v⟩ := e
      rw [jsizeFields] at hm
      omega
  | succ n ih =>
    intro m hm hwf
    cases m with
    | nil => rfl
    | cons e rest =>
      obtain ⟨k, v⟩ := e
      rw [maskWF] at hwf
      obtain ⟨hv, hrest⟩ := Bool.and_eq_true_iff.mp hwf
      rw [jsizeFields] at hm
      have hvpos := jsize_pos v
      have h2 : cloneMask rest = rest := ih rest (by omega) hrest
      have h1 : cloneMaskVal v = v := by
        cases v with
        | bool b =>
          cases b
          · simp [maskWFVal] at hv
          · rfl
        | obj nested =>
          rw [cloneMaskVal]
          rw [maskWFVal] at hv
          have hsz : jsizeFields nested ≤ n := by
            rw [show jsize (.obj nested) = 1 + jsizeFields nested from rfl] at hm
            omega
          rw [ih nested hsz hv]
        | undef => simp [maskWFVal] at hv
        | null => simp [maskWFVal] at hv
        | num _ => simp [maskWFVal] at hv
        | str _ => simp [maskWFVal] at hv
        | arr _ => simp [maskWFVal] at hv
      rw [cloneMask, h1, h2]

/-- Cloning is the identity on well-formed masks. -/
theorem cloneMask_of_wf (m : MaskRec) (h : maskWF m = true) : cloneMask m = m :=
  cloneMask_of_wf_aux (jsizeFields m) m le_rfl h

/-- C5 counterexample: merging a mask holding the literal `true` at a key
with a mask holding a nested mask at the same key yields `true` at that
key in both argument orders — the nested mask does not win and is
collapsed, contrary to the claim. -/
theorem mergeMask_true_vs_nested_counterexample :
    mergeMaskRecords (some [("k", .bool true)]) (some [("k", .obj [("a", .bool true)])]) =
      some [("k", .bool true)] ∧
    mergeMaskRecords (some [("k", .obj [("a", .bool true)])]) (some [("k", .bool true)]) =
      some [("k", .bool true)] ∧
    (some [("k", JsonVal.bool true)] : Option MaskRec) ≠
      some [("k", .obj [("a", .bool true)])] := by
  refine ⟨rfl, rfl, fun h => ?_⟩
  simp at h

/-- C5 (amended): at a key where one mask has the literal `true` and the
other a nested mask, the merge produces `true` (in either argument
order, collapsing the nested mask); a nested mask is produced as-is only
when the other side lacks the key (or is `undefined` altogether). -/
theorem mergeMask_true_wins_over_nested (k : String) (r : MaskRec)
    (hwf : maskWF r = true) :
    mergeMaskRecords (some [(k, .bool true)]) (some [(k, .obj r)]) =
      some [(k, .bool true)] ∧
    mergeMaskRecords (some [(k, .obj r)]) (some [(k, .bool true)]) =
      some [(k, .bool true)] ∧
    mergeMaskRecords (some []) (some [(k, .obj r)]) = some [(k, .obj r)] ∧
    mergeMaskRecords none (some [(k, .obj r)]) = some [(k, .obj r)] ∧
    mergeMaskRecords (some [(k, .obj r)]) none = some [(k, .obj r)] := by
  refine ⟨?_, ?_, ?_, ?_, ?_⟩ <;>
    simp [mergeMaskRecords, cloneMask, cloneMaskVal, jsizeFields, mergeMaskFuel,
      lookupField, setField, mergeMaskFuel_nil, cloneMask_of_wf r hwf]

/-- C5 amended-claim witness at concrete masks. -/
theorem mergeMask_true_wins_over_nested_witness :
    maskWF [("a", JsonVal.bool true)] = true ∧
    mergeMaskRecords (some [("w", .bool true)]) (some [("w", .obj [("a", .bool true)])]) =
      some [("w", .bool true)] ∧
    mergeMaskRecords (some []) (some [("w", .obj [("a", .bool true)])]) =
      some [("w", .obj [("a", .bool true)])] :=
  ⟨rfl, (mergeMask_true_wins_over_nested "w" [("a", .bool true)] rfl).1,
    (mergeMask_true_wins_over_nested "w" [("a", .bool true)] rfl).2.2.1⟩

/-! ## C2: tenant mismatch on create is rejected in every mode -/

/-- `ensureData` on an object whose tenant field is present but differs
from the configured tenant throws `TENANT_MISMATCH` immediately — before
any nested processing, whatever the fuel, mode or options. -/
theorem ensureData_obj_mismatch (g : GuardCtx) (fuel : Nat) (model : String)
    (dfields : List (String × JsonVal)) (path : String)
    (req rewriteOk : Bool) (kind : String) (ws : List TenantGuardWarning)
    (v : JsonVal)
    (hv : (lookupField dfields (getTenantField g model)).getD .undef = v)
    (hpresent : v.isUndef = false)
    (hne : jStrEq v g.tenantId = false) :
    ensureData g fuel model (.obj dfields) path req rewriteOk kind ws =
      .error (mkErr g .TENANT_MISMATCH model kind path v) := by
  have hstamp : ensureTenantStamp g model dfields path req rewriteOk kind ws =
      .error (mkErr g .TENANT_MISMATCH model kind path v) := by
    rw [ensureTenantStamp]
    simp only [hv, hpresent, hne, Bool.false_eq_true, if_false, Bool.not_false, if_true]
  simp [ensureData, hstamp]

/-- C2: for every guard (any mode, metadata, RLS setting) and every
create payload object whose tenant field is present and differs from the
configured tenant id, `enforce` throws `TENANT_MISMATCH` carrying the
offending value in `actualTenant` — the mismatched value is never
rewritten. -/
theorem enforce_create_tenant_mismatch (g : GuardCtx) (model : String)
    (afields dfields : List (String × JsonVal)) (v : JsonVal)
    (hdata : (lookupField afields "data").getD .undef = .obj dfields)
    (hv : (lookupField dfields (getTenantField g model)).getD .undef = v)
    (hpresent : v.isUndef = false)
    (hne : jStrEq v g.tenantId = false) :
    enforce g model "create" (.obj afields) =
      .error (mkErr g .TENANT_MISMATCH model "create" (toPath model "data") v) := by
  have h := ensureData_obj_mismatch g (enforceFuel g (.obj afields)) model dfields
    (toPath model "data") true true "create" [] v hv hpresent hne
  simp [enforce, hdata, h]

def guardC2 : GuardCtx := { tenantId := "t1", mode := .assist, meta := [] }

/-- C2 witness: an assist-mode guard still rejects a mismatched tenant
value on create, reporting it in `actualTenant`. -/
theorem enforce_create_tenant_mismatch_witness :
    JsonVal.isUndef (.str "t2") = false ∧
    jStrEq (.str "t2") guardC2.tenantId = false ∧
    enforce guardC2 "Post" "create" (.obj [("data", .obj [("tenantId", .str "t2")])]) =
      .error (mkErr guardC2 .TENANT_MISMATCH "Post" "create" (toPath "Post" "data")
        (.str "t2")) :=
  ⟨rfl, rfl,
    enforce_create_tenant_mismatch guardC2 "Post" [("data", .obj [("tenantId", .str "t2")])]
      [("tenantId", .str "t2")] (.str "t2") rfl rfl rfl rfl⟩

/-! ## C3: nested rejection with exact path -/

/-- Guard fixture used by the concrete walker claims: tenant `"t1"`,
assist mode, `Post.comments -> Comment` relation metadata. -/
def guardAssist : GuardCtx :=
  { tenantId := "t1", mode := .assist,
    meta := [("Post", { nestedTargets := some [("comments", .target "Comment")] })] }

/-- C3: with metadata mapping `Post.comments -> Comment`, a create whose
nested `comments.create[0]` element carries tenant `"t2"` (configured
tenant `"t1"`) throws `TENANT_MISMATCH` whose `path` ends in
`comments.create[0]` — the walker recurses through the relation and
reports the exact breadcrumb of the violating element. -/
theorem enforce_nested_create_mismatch_path :
    enforce guardAssist "Post" "create"
      (.obj [("data", .obj [("tenantId", .str "t1"),
        ("comments", .obj [("create", .arr [.obj [("tenantId", .str "t2")]])])])]) =
    .error { code := .TENANT_MISMATCH, model := "Comment", operation := "create",
             path := "Post.data.comments.create[0]", expectedTenant := "t1",
             actualTenant := .str "t2", meta := none } ∧
    ∃ p, "Post.data.comments.create[0]" = p ++ "comments.create[0]" :=
  ⟨rfl, "Post.data.", rfl⟩

/-! ## C7: assist-mode tenant injection -/

/-- C7: an assist-mode guard for tenant `"t1"` turns `Post.create` with
empty `data` into `data = \x7btenantId: "t1"\x7d`, emits an
`INJECT_TENANT_FIELD` warning at `Post.data`, does not throw, and leaves
every other part of `args` unchanged (in-place mutation is modelled by
the returned value). -/
theorem enforce_assist_injects_tenant :
    enforce guardAssist "Post" "create" (.obj [("data", .obj [])]) =
      .ok (.obj [("data", .obj [("tenantId", .str "t1")])],
           [⟨.INJECT_TENANT_FIELD, "Post", "create", "Post.data"⟩]) := rfl

/-! ## C6: strict-mode exhaustiveness, relaxed under RLS -/

def guardStrict : GuardCtx :=
  { tenantId := "t1", mode := .strict,
    meta := [("Post", { nestedTargets := some [] })] }

def guardStrictRls : GuardCtx :=
  { tenantId := "t1", mode := .strict, rlsEnabled := true,
    meta := [("Post", { nestedTargets := some [] })] }

/-- C6: in strict mode without RLS, a `Post` write whose `comments` value
carries a relation-operation shape while `Post`'s `nestedTargets` lacks a
`comments` entry throws `TENANT_META_MISSING`; the identical call with
`rls.enabled` succeeds. -/
theorem enforce_strict_meta_missing (v : JsonVal)
    (hrel : hasRelationOperations v = true) :
    enforce guardStrict "Post" "create"
      (.obj [("data", .obj [("tenantId", .str "t1"), ("comments", v)])]) =
      .error { code := .TENANT_META_MISSING, model := "Post", operation := "comments",
               path := "Post.data.comments", expectedTenant := "t1",
               actualTenant := .undef, meta := some { nestedTargets := some [] } } ∧
    enforce guardStrictRls "Post" "create"
      (.obj [("data", .obj [("tenantId", .str "t1"), ("comments", v)])]) =
      .ok (.obj [("data", .obj [("tenantId", .str "t1"), ("comments", v)])], []) := by
  constructor
  · obtain ⟨f, hf⟩ : ∃ f, enforceFuel guardStrict
        (.obj [("data", .obj [("tenantId", .str "t1"), ("comments", v)])]) = f + 1 :=
      ⟨_, rfl⟩
    simp only [guardStrict] at hf
    simp [enforce, hf, ensureData, ensureTenantStamp, getTenantField, getNestedTargets,
      lookupMeta, lookupField, guardStrict, nestedRelationsLoop, strictRelationCheck,
      hasRelationOperations, hrel, mkErr, toPath, jStrEq, JsonVal.isUndef, putBack,
      setField]
  · obtain ⟨f, hf⟩ : ∃ f, enforceFuel guardStrictRls
        (.obj [("data", .obj [("tenantId", .str "t1"), ("comments", v)])]) = f + 1 :=
      ⟨_, rfl⟩
    simp only [guardStrictRls] at hf
    simp [enforce, hf, ensureData, ensureTenantStamp, getTenantField, getNestedTargets,
      lookupMeta, lookupField, guardStrictRls, nestedRelationsLoop, strictRelationCheck,
      hasRelationOperations, hrel, mkErr, toPath, jStrEq, JsonVal.isUndef, putBack,
      setField]

def vC6 : JsonVal := .obj [("create", .arr [.obj [("tenantId", .str "t1")]])]

/-- C6 witness at a concrete relation-shaped `comments` value. -/
theorem enforce_strict_meta_missing_witness :
    hasRelationOperations vC6 = true ∧
    enforce guardStrict "Post" "create"
      (.obj [("data", .obj [("tenantId", .str "t1"), ("comments", vC6)])]) =
      .error { code := .TENANT_META_MISSING, model := "Post", operation := "comments",
               path := "Post.data.comments", expectedTenant := "t1",
               actualTenant := .undef, meta := some { nestedTargets := some [] } } ∧
    enforce guardStrictRls "Post" "create"
      (.obj [("data", .obj [("tenantId", .str "t1"), ("comments", vC6)])]) =
      .ok (.obj [("data", .obj [("tenantId", .str "t1"), ("comments", vC6)])], []) :=
  ⟨rfl, (enforce_strict_meta_missing vC6 rfl).1, (enforce_strict_meta_missing vC6 rfl).2⟩

/-! ## C10: nested deleteMany where-clauses are never rewritten -/

/-- C10: in assist mode, a nested relation `deleteMany` validates each
where entry with rewriting disabled, so any where object without a
tenant constraint makes `enforce` throw `WHERE_TENANT_MISSING` — unlike
top-level where clauses and nested `updateMany` where clauses, which are
injected (with an `INJECT_TENANT_WHERE` warning) in assist mode. -/
theorem enforce_nested_deleteMany_never_rewrites
    (wfields : List (String × JsonVal))
    (habsent : (lookupField wfields "tenantId").getD .undef = .undef) :
    enforce guardAssist "Post" "update"
      (.obj [("where", .obj [("tenantId", .str "t1")]),
             ("data", .obj [("comments",
               .obj [("deleteMany", .arr [.obj wfields])])])]) =
      .error { code := .WHERE_TENANT_MISSING, model := "Comment",
               operation := "deleteMany", path := "Post.data.comments.deleteMany[0]",
               expectedTenant := "t1", actualTenant := .undef, meta := none } ∧
    enforce guardAssist "Post" "deleteMany" (.obj [("where", .obj [("id", .num 1)])]) =
      .ok (.obj [("where", .obj [("id", .num 1), ("tenantId", .str "t1")])],
           [⟨.INJECT_TENANT_WHERE, "Post", "deleteMany", "Post.where"⟩]) ∧
    enforce guardAssist "Post" "update"
      (.obj [("where", .obj [("tenantId", .str "t1")]),
             ("data", .obj [("comments",
               .obj [("updateMany", .obj [("where", .obj [("authorId", .num 5)]),
                                          ("data", .obj [("body", .str "x")])])])])]) =
      .ok (.obj [("where", .obj [("tenantId", .str "t1")]),
             ("data", .obj [("comments",
               .obj [("updateMany", .obj [("where", .obj [("authorId", .num 5),
                                            ("tenantId", .str "t1")]),
                                          ("data", .obj [("body", .str "x")])])])])],
           [⟨.INJECT_TENANT_WHERE, "Comment", "updateMany",
             "Post.data.comments.updateMany.where"⟩]) := by
  refine ⟨?_, rfl, rfl⟩
  have hjs := jsize_pos (.obj [("where", .obj [("tenantId", .str "t1")]),
    ("data", .obj [("comments", .obj [("deleteMany", .arr [.obj wfields])])])])
  obtain ⟨f5, hf⟩ : ∃ f5, enforceFuel guardAssist
      (.obj [("where", .obj [("tenantId", .str "t1")]),
             ("data", .obj [("comments",
               .obj [("deleteMany", .arr [.obj wfields])])])]) = f5 + 5 := by
    rw [enforceFuel]
    simp only [guardAssist, metaFuel]
    refine ⟨jsize (.obj [("where", .obj [("tenantId", .str "t1")]),
      ("data", .obj [("comments",
        .obj [("deleteMany", .arr [.obj wfields])])])]) * 4 - 4, ?_⟩
    simp only [Option.getD, List.length_cons, List.length_nil]
    omega
  simp only [guardAssist] at hf
  simp [enforce, hf, ensureData, ensureTenantStamp, ensureWhere, getTenantField,
    getNestedTargets, getCompositeSelector, compositeOf, lookupMeta, lookupField,
    guardAssist, nestedRelationsLoop, processRelationPayload, relOpsLoop, relOpApply,
    relationOperations, resolveTargetModel, truthyStr, ensureWhereList, habsent,
    mkErr, toPath, toIndexPath, hasField, jStrEq, JsonVal.isUndef, putBack, setField]
  rfl

def wfieldsC10 : List (String × JsonVal) := [("authorId", .num 5)]

/-- C10 witness at a concrete tenant-free nested deleteMany where entry. -/
theorem enforce_nested_deleteMany_never_rewrites_witness :
    (lookupField wfieldsC10 "tenantId").getD .undef = .undef ∧
    enforce guardAssist "Post" "update"
      (.obj [("where", .obj [("tenantId", .str "t1")]),
             ("data", .obj [("comments",
               .obj [("deleteMany", .arr [.obj wfieldsC10])])])]) =
      .error { code := .WHERE_TENANT_MISSING, model := "Comment",
               operation := "deleteMany", path := "Post.data.comments.deleteMany[0]",
               expectedTenant := "t1", actualTenant := .undef, meta := none } :=
  ⟨rfl, (enforce_nested_deleteMany_never_rewrites wfieldsC10 rfl).1⟩

end AuthzKit
